import Mathlib

/-!
Verification development for the steam-game-data-collector repository.

The repository contains two revisions of the same multi-source fetch-and-merge
engine: the package `gameinsights` (current revision) and the package
`steamgamedata` (older revision).  Definitions below embed the Python source
of both revisions; names follow the source files.  Python dictionaries are
modelled as association lists whose update semantics mirror `dict` (an
existing key keeps its position and gets the new value, a new key is appended),
Python values as the inductive `Value`, machine floats as either a rational or
the NaN sentinel (no other IEEE behaviour is relied on), and raised exceptions
as the `Except` error channel.
-/

/-- A Python float: either an ordinary (finite) number, modelled as a
rational, or the NaN sentinel produced by `float("nan")`. -/
inductive PyFloat where
  | nan : PyFloat
  | rat : ℚ → PyFloat
deriving DecidableEq

/-- A Python value as it appears in the JSON payloads and field maps of the
repository: `None`, `int`, `float`, `str`, `list`, or `dict` (string keys). -/
inductive Value where
  | vNone : Value
  | vInt : ℤ → Value
  | vFloat : PyFloat → Value
  | vStr : String → Value
  | vList : List Value → Value
  | vDict : List (String × Value) → Value
  | vDate : ℤ → Value

open Value

/-- Python truthiness (`bool(v)`) for the values above.  `None`, `0`, `0.0`,
`""`, `[]` and `{}` are falsy; NaN is truthy; a datetime is always truthy. -/
def pyTruthy : Value → Bool
  | vNone => false
  | vInt n => n ≠ 0
  | vFloat .nan => true
  | vFloat (.rat q) => q ≠ 0
  | vStr s => s ≠ ""
  | vList l => !l.isEmpty
  | vDict d => !d.isEmpty
  | vDate _ => true

/-- A raw record / field map: a Python dict from field names to values,
modelled as an association list in insertion order. -/
abbrev RawRec := List (String × Value)

/-- Dictionary lookup `d.get(f)` / `d[f]` (presence only): first binding of
the key, if any. -/
def dictGet (r : RawRec) (f : String) : Option Value :=
  (r.find? (fun p => p.1 == f)).map (·.2)

/-- Python `d[f] = v`: an existing key keeps its position and is given the
new value, a missing key is appended at the end. -/
def dictSet : RawRec → String → Value → RawRec
  | [], f, v => [(f, v)]
  | (g, w) :: rest, f, v =>
    if g = f then (f, v) :: rest else (g, w) :: dictSet rest f v

/-- `raw.update({key: data[key] for key in fields})`: write `data f` into the
record for every `f` in `fields`, in order. -/
def dictSetFields (r : RawRec) (fields : List String) (data : String → Value) : RawRec :=
  fields.foldl (fun acc f => dictSet acc f (data f)) r

/-- A `requests.Response` as far as the repository inspects one: status code,
reason, url and a body.  The body is either text that parses as JSON, carried
directly as the parsed `Value`, or text that does not (including the empty
text of a synthetic response), carried raw; this abstracts the JSON grammar
away while keeping `response.json()` / `json.loads` faithful: they raise
exactly on the `invalid` bodies. -/
inductive Body where
  | invalid : String → Body
  | json : Value → Body

/-- `response.text` is empty. -/
def Body.isEmptyText : Body → Bool
  | .invalid s => s == ""
  | .json _ => false

structure HttpResponse where
  status_code : ℕ
  reason : String
  url : String
  body : Body

/-- The classes of Python exception the embedded code can raise. -/
inductive PyErr where
  | jsonDecodeError
  | keyError
  | indexError
  | typeError
  | attributeError
deriving DecidableEq

/-- What one `requests.get` inside `_make_request` does on the `attempts`-th
try: return a response, or raise a retryable error (`ConnectionError`,
`Timeout`), a fatal one (`InvalidURL`, `SSLError`, `TooManyRedirects`), or an
unknown `RequestException`. -/
inductive Attempt where
  | success : HttpResponse → Attempt
  | retryable : String → Attempt
  | fatal : String → Attempt
  | unknown : String → Attempt

namespace Gameinsights

/-- `gameinsights/sources/base.py`, `SYNTHETIC_ERROR_CODE = 599`. -/
def SYNTHETIC_ERROR_CODE : ℕ := 599

/-- `gameinsights/sources/base.py`, `BaseSource._create_synthetic_response`
(lines 153-161): a response with the reserved status code, empty content and
the given reason. -/
def create_synthetic_response (url reason : String) : HttpResponse :=
  { status_code := SYNTHETIC_ERROR_CODE, reason := reason, url := url,
    body := .invalid "" }

/-- The loop body of `BaseSource._make_request` (lines 121-151):
`for attempts in range(1, retries + 2)` over a script of per-attempt GET
outcomes, recording each backoff sleep.  `fuel` counts the iterations the
`range` still allows; falling off the loop returns the
"unexpected request error" synthetic response (line 151). -/
def make_request_loop (script : ℕ → Attempt) (retries : ℕ) (backoff_factor : ℚ)
    (url : String) : ℕ → ℕ → List ℚ → HttpResponse × List ℚ
  | _, 0, sleeps => (create_synthetic_response url "unexpected request error", sleeps)
  | attempts, fuel + 1, sleeps =>
    match script attempts with
    | .success r => (r, sleeps)
    | .retryable e =>
      if attempts < retries then
        make_request_loop script retries backoff_factor url (attempts + 1) fuel
          (sleeps ++ [backoff_factor * 2 ^ (attempts - 1)])
      else (create_synthetic_response url e, sleeps)
    | .fatal e => (create_synthetic_response url e, sleeps)
    | .unknown e => (create_synthetic_response url e, sleeps)

/-- `BaseSource._make_request`: run the attempt loop from attempt 1 and
return the response together with the list of backoff sleeps performed. -/
def make_request (script : ℕ → Attempt) (retries : ℕ) (backoff_factor : ℚ)
    (url : String) : HttpResponse × List ℚ :=
  make_request_loop script retries backoff_factor url 1 (retries + 1) []

end Gameinsights

/-- Modelled from the spec: the window of the external `ratelimit` package
used by both `logged_rate_limited` decorators (the package itself is not part
of the repository).  Per the spec, the limiter keeps the admission timestamps
inside the trailing `period`-second window; an acquisition with budget left
is admitted immediately, otherwise the caller sleeps until the oldest
timestamp ages out and is then admitted.  Returns the wait imposed on this
acquisition and the new window state. -/
def acquire (calls period : ℕ) (now : ℚ) (st : List ℚ) : ℚ × List ℚ :=
  let window := st.filter (fun t => now - t < (period : ℚ))
  if window.length < calls then (0, window ++ [now])
  else
    let oldest := window.headD now
    let wait := oldest + period - now
    let admitted := now + wait
    (wait, (window.filter (fun t => admitted - t < (period : ℚ))) ++ [admitted])

namespace Gameinsights

/-- `gameinsights/utils/ratelimit.py`, `logged_rate_limited` (lines 29-67):
the decorator caches one limiter per instance and configuration
(`cache_attr`), so the window state persists across calls.  Given the times
at which the wrapped method is called, return the wait each call incurred. -/
def logged_rate_limited_waits (calls period : ℕ) (times : List ℚ) : List ℚ :=
  (times.foldl
    (fun (acc : List ℚ × List ℚ) t =>
      let step := acquire calls period t acc.2
      (acc.1 ++ [step.1], step.2))
    ([], [])).1

end Gameinsights

namespace Steamgamedata

/-- `steamgamedata/utils/ratelimit.py`, `logged_rate_limited` (lines 28-52):
the older revision builds `limits(calls=..., period=...)` afresh inside every
call of `wrapper`, so each call runs against a brand-new, empty window. -/
def logged_rate_limited_waits (calls period : ℕ) (times : List ℚ) : List ℚ :=
  times.map (fun t => (acquire calls period t []).1)

end Steamgamedata

/-- The loop body shared by both revisions of `_filter_valid_labels`:
`(valid if label in validation_set else invalid).append(label)` over the
given iteration list, with `valid`/`invalid` as accumulators. -/
def filterLabelsLoop (validation_set : List String) :
    List String → List String → List String → List String × List String
  | [], valid, invalid => (valid, invalid)
  | label :: rest, valid, invalid =>
    if label ∈ validation_set then
      filterLabelsLoop validation_set rest (valid ++ [label]) invalid
    else filterLabelsLoop validation_set rest valid (invalid ++ [label])

namespace Gameinsights

/-- `gameinsights/sources/base.py`, `BaseSource._filter_valid_labels`
(lines 168-198): walk `selected_labels` (`for label in selected_labels:`),
appending each label to `valid` if it is a member of the validation set and
to `invalid` otherwise, and return the `valid` list (the `invalid` list is
only logged, at warning level, together with the valid vocabulary). -/
def filter_valid_labels (selected_labels : List String)
    (valid_labels : List String) : List String :=
  (filterLabelsLoop valid_labels selected_labels [] []).1

end Gameinsights

namespace Steamgamedata

/-- `steamgamedata/sources/base.py`, `BaseSource._filter_valid_labels`
(lines 82-111): the same routine in the older revision, except that the loop
header reads `for label in validation_set:` — it iterates over the validation
set itself, not over `selected_labels`.  The validation set is
`frozenset(valid_labels)`; a Python frozenset iterates each distinct element
once in a hash-dependent order, modelled here as `valid_labels.dedup` (which
order is used does not affect any theorem below, only membership does). -/
def filter_valid_labels (selected_labels : List String)
    (valid_labels : List String) : List String :=
  let validation_set := valid_labels.dedup
  (filterLabelsLoop validation_set validation_set [] []).1

end Steamgamedata

/-- A `SourceResult` as the adapters build it (`SuccessResult | ErrorResult`
in `sources/base.py`): a success with a data dict, or an error message. -/
inductive SourceResult where
  | success : RawRec → SourceResult
  | failure : String → SourceResult

/-- Python `x == 0` for the values above (used for
`search_result["count"] == 0`). -/
def pyEqZero : Value → Bool
  | vInt n => n == 0
  | vFloat (.rat q) => q == 0
  | _ => false

/-- `_STEAMSPY_LABELS` from `gameinsights/sources/steamspy.py`. -/
def steamspyLabels : List String :=
  ["steam_appid", "name", "developers", "publishers", "positive_reviews",
   "negative_reviews", "owners", "average_forever", "average_2weeks",
   "median_forever", "median_2weeks", "price", "initial_price", "discount",
   "ccu", "languages", "genres", "tags"]

/-- `_HOWLONGTOBEAT_LABELS` from `gameinsights/sources/howlongtobeat.py`. -/
def howlongtobeatLabels : List String :=
  ["game_id", "game_name", "game_type", "comp_main", "comp_plus", "comp_100",
   "comp_all", "comp_main_count", "comp_plus_count", "comp_100_count",
   "comp_all_count", "invested_co", "invested_mp", "invested_co_count",
   "invested_mp_count", "count_comp", "count_speedrun", "count_backlog",
   "count_review", "review_score", "count_playing", "count_retired"]

namespace Gameinsights

/-- `SteamSpy._transform_data` (`gameinsights/sources/steamspy.py`,
lines 88-111): repack the upstream dict into the 18-label vocabulary, with
`data.get(..., None)` defaults, and flatten a `tags` dict to its keys. -/
def steamspy_transform_data (data : RawRec) : RawRec :=
  let g := fun k => (dictGet data k).getD vNone
  let tags := (dictGet data "tags").getD (vList [])
  let tags := match tags with
    | vDict kvs => vList (kvs.map (fun kv => vStr kv.1))
    | _ => vList []
  [("steam_appid", g "appid"), ("name", g "name"), ("developers", g "developer"),
   ("publishers", g "publisher"), ("positive_reviews", g "positive"),
   ("negative_reviews", g "negative"), ("owners", g "owners"),
   ("average_forever", g "average_forever"), ("average_2weeks", g "average_2weeks"),
   ("median_forever", g "median_forever"), ("median_2weeks", g "median_2weeks"),
   ("price", g "price"), ("initial_price", g "initialprice"),
   ("discount", g "discount"), ("ccu", g "ccu"), ("languages", g "languages"),
   ("genres", g "genre"), ("tags", tags)]

/-- `{label: data_packed[label] for label in self._filter_valid_labels(selected)}`:
the filtered labels are members of the vocabulary, which `data_packed`
covers, so the subscript never raises; `getD vNone` is unreachable. -/
def project_labels (packed : RawRec) (selected valid : List String) : RawRec :=
  (filter_valid_labels selected valid).map
    (fun l => (l, (dictGet packed l).getD vNone))

/-- `SteamSpy.fetch` (`gameinsights/sources/steamspy.py`, lines 38-86),
given the response `_make_request` produced.  The `Except` error channel
carries an exception escaping `fetch`: `response.json()` raises on a body
that is not JSON, and `data.get("name", None)` raises `AttributeError` when
the parsed body is not an object. -/
def steamspy_fetch (steam_appid : String) (response : HttpResponse)
    (selected_labels : Option (List String)) : Except PyErr SourceResult :=
  if response.status_code ≠ 200 then
    .ok (.failure ("Failed to connect to API. Status code: " ++
      toString response.status_code))
  else
    match response.body with
    | .invalid _ => .error .jsonDecodeError
    | .json (vDict data) =>
      if pyTruthy ((dictGet data "name").getD vNone) = false then
        .ok (.failure ("Game with appid " ++ steam_appid ++ " is not found."))
      else
        let data_packed := steamspy_transform_data data
        let data_packed :=
          match selected_labels with
          | some sel =>
            if sel.isEmpty then data_packed
            else project_labels data_packed sel steamspyLabels
          | none => data_packed
        .ok (.success data_packed)
    | .json _ => .error .attributeError

/-- `HowLongToBeat._transform_data` (lines 216-218):
`{label: data.get(label, None) for label in self._valid_labels}`. -/
def hltb_transform_data (data : RawRec) : RawRec :=
  howlongtobeatLabels.map (fun l => (l, (dictGet data l).getD vNone))

/-- `HowLongToBeat.fetch` (`gameinsights/sources/howlongtobeat.py`,
lines 164-214), given the value `_fetch_search_results` returned (`none`
models a patched-out transport returning `None`; a synthetic response has
status 599 and empty text).  `not search_response` uses
`requests.Response.__bool__`, which is `status_code < 400`.  The `Except`
error channel carries an exception escaping `fetch`:
`search_result["count"]` and `search_result["data"]` raise `KeyError` when
the parsed object lacks those keys, `[0]` raises `IndexError` on an empty
list and `TypeError` on a non-list, and `.get` on a non-dict element raises
`AttributeError`. -/
def hltb_fetch (search_response : Option HttpResponse)
    (selected_labels : Option (List String)) : Except PyErr SourceResult :=
  match search_response with
  | none => .ok (.failure "Failed to fetch data.")
  | some resp =>
    if 400 ≤ resp.status_code then .ok (.failure "Failed to fetch data.")
    else if resp.body.isEmptyText then .ok (.failure "Failed to fetch data.")
    else
      match resp.body with
      | .invalid _ => .ok (.failure "Failed to parse search response.")
      | .json (vDict search_result) =>
        match dictGet search_result "count" with
        | none => .error .keyError
        | some c =>
          if pyEqZero c then .ok (.failure "Game is not found.")
          else
            match dictGet search_result "data" with
            | none => .error .keyError
            | some (vList []) => .error .indexError
            | some (vList (first :: _)) =>
              match first with
              | vDict d =>
                let data_packed := hltb_transform_data d
                let data_packed :=
                  match selected_labels with
                  | some sel =>
                    if sel.isEmpty then data_packed
                    else project_labels data_packed sel howlongtobeatLabels
                  | none => data_packed
                .ok (.success data_packed)
              | _ => .error .attributeError
            | some _ => .error .typeError
      | .json _ => .ok (.failure "Unexpected search response format.")

end Gameinsights

/-- Truncation toward zero of a rational, as Python `int(float)` does. -/
def ratTrunc (q : ℚ) : ℤ := Int.tdiv q.num q.den

/-- A decimal numeral: at least one digit, value in base 10.  (Defined
directly on character lists so that every string operation in this file is
structurally recursive and reduces definitionally.) -/
def digitsToNat? (cs : List Char) : Option ℕ :=
  if cs.isEmpty then none
  else
    cs.foldl
      (fun acc c =>
        acc.bind (fun n =>
          if c.isDigit then some (10 * n + (c.toNat - '0'.toNat)) else none))
      (some 0)

/-- Strip leading and trailing whitespace (Python `str.strip()`). -/
def trimSpaces (cs : List Char) : List Char :=
  ((cs.dropWhile Char.isWhitespace).reverse.dropWhile Char.isWhitespace).reverse

/-- Split a character list on a separator character (Python `str.split(c)`);
always returns at least one (possibly empty) chunk. -/
def splitOnChar (c : Char) : List Char → List (List Char)
  | [] => [[]]
  | x :: xs =>
    match splitOnChar c xs with
    | [] => [[x]]
    | h :: t => if x = c then [] :: h :: t else (x :: h) :: t

/-- Python `int(s)` on a string: optional surrounding whitespace, optional
sign, decimal digits (digit-group underscores are not modelled). -/
def pyIntOfString (s : String) : Option ℤ :=
  match trimSpaces s.toList with
  | '-' :: rest => (digitsToNat? rest).map (fun n => -(n : ℤ))
  | '+' :: rest => (digitsToNat? rest).map (fun n => (n : ℤ))
  | rest => (digitsToNat? rest).map (fun n => (n : ℤ))

/-- Python `float(s)` on a string: an optionally signed decimal numeral with
an optional fractional part, or the NaN spelling (exponents, infinities and
underscores are not modelled). -/
def pyFloatOfString (s : String) : Option PyFloat :=
  let t := trimSpaces s.toList
  if t = ['n', 'a', 'n'] ∨ t = ['N', 'a', 'N'] then some .nan
  else
    let signed : Bool × List Char :=
      match t with
      | '-' :: rest => (true, rest)
      | '+' :: rest => (false, rest)
      | rest => (false, rest)
    let mag : Option ℚ :=
      match splitOnChar '.' signed.2 with
      | [a] => (digitsToNat? a).map (fun n => (n : ℚ))
      | [a, b] =>
        match digitsToNat? a, digitsToNat? b with
        | some n, some frac =>
          some ((n : ℚ) + (frac : ℚ) / (10 : ℚ) ^ b.length)
        | _, _ => none
      | _ => none
    mag.map (fun q => .rat (if signed.1 then -q else q))

/-- A plain rendering for `str(v)`; the repository only relies on the result
being a string (the exact spelling of non-string values is not load-bearing
for any property below). -/
def pyStr : Value → String
  | vNone => "None"
  | vInt n => toString n
  | vFloat .nan => "nan"
  | vFloat (.rat q) => toString q
  | vStr s => s
  | vList _ => "[...]"
  | vDict _ => "\x7b...\x7d"
  | vDate d => toString d

/-- Days since 1970-01-01 of the civil date `(y, m, d)` (the standard
days-from-civil computation), used to model `datetime` values so that
`datetime` subtraction in days is serial subtraction. -/
def daysFromCivil (y m d : ℤ) : ℤ :=
  let y2 := if m ≤ 2 then y - 1 else y
  let era := Int.fdiv y2 400
  let yoe := y2 - era * 400
  let mp := Int.fmod (m + 9) 12
  let doy := Int.fdiv (153 * mp + 2) 5 + d - 1
  let doe := yoe * 365 + Int.fdiv yoe 4 - Int.fdiv yoe 100 + doy
  era * 146097 + doe - 719468

/-- `datetime.strptime(s, "%b %d, %Y")` (e.g. `"Jun 15, 2023"`), as a date
serial; `none` when the text does not match the format. -/
def strptimeBdY (s : String) : Option ℤ :=
  let months : List (List Char) :=
    [['J','a','n'], ['F','e','b'], ['M','a','r'], ['A','p','r'],
     ['M','a','y'], ['J','u','n'], ['J','u','l'], ['A','u','g'],
     ['S','e','p'], ['O','c','t'], ['N','o','v'], ['D','e','c']]
  match splitOnChar ',' s.toList with
  | [md, yearPart] =>
    match splitOnChar ' ' md, yearPart with
    | [mon, day], ' ' :: yearDigits =>
      match months.indexOf? mon, digitsToNat? day, digitsToNat? yearDigits with
      | some mi, some d, some y =>
        if 1 ≤ d ∧ d ≤ 31 then some (daysFromCivil y (mi + 1) d) else none
      | _, _, _ => none
    | _, _ => none
  | _ => none

/-!
`steamgamedata/model/game_data.py`, `GameDataModel` (pydantic v2).  The four
`field_validator(..., mode="before")` class methods are total Python
functions (every exception they can see is caught); validation errors can
only arise in pydantic's own core validation of the declared type, after the
before-chain ran.
-/

/-- `GameDataModel.handle_integers` (lines 80-121): `None` passes through,
otherwise `int(v)`, with `ValueError`/`TypeError` resolved to `None`
(`int(float("nan"))` raises `ValueError`; `int` of a list, dict or datetime
raises `TypeError`). -/
def handle_integers : Value → Value
  | vNone => vNone
  | vInt n => vInt n
  | vFloat .nan => vNone
  | vFloat (.rat q) => vInt (ratTrunc q)
  | vStr s => match pyIntOfString s with
    | some n => vInt n
    | none => vNone
  | _ => vNone

/-- `GameDataModel.handle_float` (lines 123-138): `None` becomes
`float("nan")`, otherwise `float(v)`, with `ValueError`/`TypeError` resolved
to `float("nan")`. -/
def handle_float : Value → Value
  | vNone => vFloat .nan
  | vInt n => vFloat (.rat n)
  | vFloat f => vFloat f
  | vStr s => match pyFloatOfString s with
    | some f => vFloat f
    | none => vFloat .nan
  | _ => vFloat .nan

/-- `GameDataModel.ensure_string` (lines 140-143): `None` becomes `""`,
everything else `str(v)`. -/
def ensure_string : Value → Value
  | vNone => vStr ""
  | v => vStr (pyStr v)

/-- `GameDataModel.ensure_list` (lines 145-162): `None` becomes `[]`, a list
passes through, any other value is wrapped in a one-element list. -/
def ensure_list : Value → Value
  | vNone => vList []
  | vList l => vList l
  | v => vList [v]

/-- `GameDataModel.parse_release_date` (lines 67-78): `None`/`datetime` pass
through; a string is parsed with `"%b %d, %Y"`; an int/float is read as a
POSIX timestamp (`datetime.fromtimestamp`, whose `ValueError` on NaN is
caught); any other type falls off the end of the function and yields
`None`. -/
def parse_release_date : Value → Value
  | vNone => vNone
  | vDate d => vDate d
  | vStr s => match strptimeBdY s with
    | some d => vDate d
    | none => vNone
  | vInt n => vDate (Int.fdiv n 86400)
  | vFloat (.rat q) => vDate ⌊q / 86400⌋
  | vFloat .nan => vNone
  | _ => vNone

/-- The before-validators, by name. -/
inductive BeforeValidator where
  | handleIntegers
  | handleFloat
  | ensureString
  | ensureList
  | parseReleaseDate
deriving DecidableEq

def runBefore : BeforeValidator → Value → Value
  | .handleIntegers => handle_integers
  | .handleFloat => handle_float
  | .ensureString => ensure_string
  | .ensureList => ensure_list
  | .parseReleaseDate => parse_release_date

/-- The declared pydantic types appearing in `GameDataModel`. -/
inductive FType where
  | tyStr
  | tyOptStr
  | tyFloat
  | tyOptInt
  | tyOptDate
  | tyListStr
  | tyListDict
deriving DecidableEq

/-- Pydantic's core (lax-mode) validation of a declared type, applied after
the before-chain: `str` accepts only strings (pydantic v2 does not coerce
numbers to `str`), `float` accepts int/float/numeric string, `int | None`
accepts `None`, ints, whole floats and integral strings,
`list[str]`/`list[dict]` accept lists with items of the right shape (a bare
scalar is not wrapped by the core), `datetime | None` accepts `None` and
`datetime` (its string/timestamp coercions are unreachable here behind
`parse_release_date`). -/
def coreValidate : FType → Value → Except String Value
  | .tyStr, vStr s => .ok (vStr s)
  | .tyStr, _ => .error "string_type"
  | .tyOptStr, vNone => .ok vNone
  | .tyOptStr, vStr s => .ok (vStr s)
  | .tyOptStr, _ => .error "string_type"
  | .tyFloat, vFloat f => .ok (vFloat f)
  | .tyFloat, vInt n => .ok (vFloat (.rat n))
  | .tyFloat, vStr s =>
    match pyFloatOfString s with
    | some f => .ok (vFloat f)
    | none => .error "float_parsing"
  | .tyFloat, _ => .error "float_type"
  | .tyOptInt, vNone => .ok vNone
  | .tyOptInt, vInt n => .ok (vInt n)
  | .tyOptInt, vFloat (.rat q) =>
    if q.den = 1 then .ok (vInt q.num) else .error "int_from_float"
  | .tyOptInt, vFloat .nan => .error "finite_number"
  | .tyOptInt, vStr s =>
    match pyIntOfString s with
    | some n => .ok (vInt n)
    | none => .error "int_parsing"
  | .tyOptInt, _ => .error "int_type"
  | .tyOptDate, vNone => .ok vNone
  | .tyOptDate, vDate d => .ok (vDate d)
  | .tyOptDate, _ => .error "datetime_type"
  | .tyListStr, vList l =>
    if l.all (fun x => match x with | vStr _ => true | _ => false) then
      .ok (vList l)
    else .error "string_type"
  | .tyListStr, _ => .error "list_type"
  | .tyListDict, vList l =>
    if l.all (fun x => match x with | vDict _ => true | _ => false) then
      .ok (vList l)
    else .error "dict_type"
  | .tyListDict, _ => .error "list_type"

/-- One schema field: declared type, before-validator chain in execution
order (pydantic v2 runs `mode="before"` validators in the reverse of their
definition order), whether the field is required, and its default. -/
structure FieldSpec where
  ty : FType
  chain : List BeforeValidator
  required : Bool
  dflt : Value

def intField : FieldSpec := ⟨.tyOptInt, [.handleIntegers], false, vNone⟩

/-- An `int | None` field with no before-validator (`days_since_release`,
`average_playtime`). -/
def intPlainField : FieldSpec := ⟨.tyOptInt, [], false, vNone⟩

def floatField : FieldSpec := ⟨.tyFloat, [.handleFloat], false, vFloat .nan⟩

def optStrPlainField : FieldSpec := ⟨.tyOptStr, [], false, vNone⟩

def listStrField : FieldSpec := ⟨.tyListStr, [.ensureList], false, vList []⟩

def listDictField : FieldSpec := ⟨.tyListDict, [.ensureList], false, vList []⟩

/-- The full `GameDataModel` schema, in source declaration order
(lines 12-65 of `steamgamedata/model/game_data.py`).  `review_score` is
named by both `handle_integers` and `handle_float`; the chain lists
`handle_float` first because it is defined later in the class and pydantic
runs before-validators bottom-up. -/
def gameDataSchema : List (String × FieldSpec) :=
  [("steam_appid", ⟨.tyStr, [.ensureString], true, vNone⟩),
   ("name", ⟨.tyOptStr, [.ensureString], false, vNone⟩),
   ("developers", listStrField),
   ("publishers", listStrField),
   ("price_currency", optStrPlainField),
   ("price_initial", floatField),
   ("price_final", floatField),
   ("metacritic_score", intField),
   ("release_date", ⟨.tyOptDate, [.parseReleaseDate], false, vNone⟩),
   ("days_since_release", intPlainField),
   ("average_playtime_h", floatField),
   ("average_playtime", intPlainField),
   ("copies_sold", intField),
   ("estimated_revenue", intField),
   ("owners", intField),
   ("ccu", intField),
   ("active_player_24h", intField),
   ("peak_active_player_all_time", intField),
   ("monthly_active_player", listDictField),
   ("review_score", ⟨.tyFloat, [.handleFloat, .handleIntegers], false, vFloat .nan⟩),
   ("review_score_desc", optStrPlainField),
   ("total_positive", intField),
   ("total_negative", intField),
   ("total_reviews", intField),
   ("achievements_count", intField),
   ("achievements_percentage_average", floatField),
   ("achievements_list", listDictField),
   ("comp_main", intField),
   ("comp_plus", intField),
   ("comp_100", intField),
   ("comp_all", intField),
   ("comp_main_count", intField),
   ("comp_plus_count", intField),
   ("comp_100_count", intField),
   ("comp_all_count", intField),
   ("invested_co", intField),
   ("invested_mp", intField),
   ("invested_co_count", intField),
   ("invested_mp_count", intField),
   ("count_comp", intField),
   ("count_speed_run", intField),
   ("count_backlog", intField),
   ("count_review", intField),
   ("count_playing", intField),
   ("count_retired", intField),
   ("languages", listStrField),
   ("platforms", listStrField),
   ("categories", listStrField),
   ("genres", listStrField),
   ("tags", listStrField),
   ("content_rating", listDictField)]

/-- Validate one supplied value: run the before-chain, then the core
validation of the declared type. -/
def validateField (fs : FieldSpec) (v : Value) : Except String Value :=
  coreValidate fs.ty (fs.chain.foldl (fun acc f => runBefore f acc) v)

/-- What one schema field contributes: a supplied value goes through
`validateField`; a missing field errors if required (`Field required` — the
missing-`steam_appid` case) and otherwise takes the default, which pydantic
does not validate. -/
def fieldOutcome (fs : FieldSpec) : Option Value → Except String Value
  | some v => validateField fs v
  | none => if fs.required then .error "Field required" else .ok fs.dflt

/-- Walk the schema, building the validated field map or stopping at the
first validation error (pydantic collects all errors before raising; for
raise-versus-succeed, stopping at the first is equivalent). -/
def collectFields (raw : RawRec) : List (String × FieldSpec) → Except String RawRec
  | [] => .ok []
  | (n, fs) :: rest =>
    match fieldOutcome fs (dictGet raw n) with
    | .error e => .error e
    | .ok v =>
      match collectFields raw rest with
      | .error e => .error e
      | .ok r => .ok ((n, v) :: r)

/-- `GameDataModel.compute_average_playtime` (lines 206-211): when
`average_playtime_h` is not `None` and equal to itself (i.e. not NaN), set
`average_playtime` to `int(average_playtime_h * 3600)`. -/
def compute_average_playtime (rec : RawRec) : RawRec :=
  match dictGet rec "average_playtime_h" with
  | some (vFloat (.rat q)) =>
    dictSet rec "average_playtime" (vInt (ratTrunc (q * 3600)))
  | _ => rec

/-- `GameDataModel.compute_days_since_release` (lines 213-215): when
`release_date` is truthy, set `days_since_release` to
`(datetime.now() - release_date).days`; `now` is today's date serial. -/
def compute_days_since_release (now : ℤ) (rec : RawRec) : RawRec :=
  match dictGet rec "release_date" with
  | some (vDate d) => dictSet rec "days_since_release" (vInt (now - d))
  | _ => rec

/-- `GameDataModel.preprocess_data` (`model_validator(mode="after")`,
lines 200-204). -/
def preprocess_data (now : ℤ) (rec : RawRec) : RawRec :=
  compute_days_since_release now (compute_average_playtime rec)

/-- `GameDataModel(raw)`: pydantic field validation of the raw map over
the full schema (extra keys are ignored — the model has no
`extra` configuration), followed by the after-validator.  `.error` is a
raised `ValidationError`. -/
def validateGameData (now : ℤ) (raw : RawRec) : Except String RawRec :=
  match collectFields raw gameDataSchema with
  | .error e => .error e
  | .ok rec => .ok (preprocess_data now rec)

/-- The result of one `SourceAdapter.fetch` as the collectors consume it: a
success flag with a data map covering the adapter's vocabulary, or an error
message.  (`data` is total on strings; the collectors only read the declared
fields, which each adapter's vocabulary covers.) -/
inductive FetchOutcome where
  | success : (String → Value) → FetchOutcome
  | failure : String → FetchOutcome

def FetchOutcome.isSuccess : FetchOutcome → Bool
  | .success _ => true
  | .failure _ => false

/-- The sources a collector is configured with. -/
inductive SourceId where
  | steamstore
  | gamalytic
  | steamspy
  | steamcharts
  | steamreview
  | steamachievements
  | howlongtobeat
deriving DecidableEq

/-- One iteration of the merge loop in `_fetch_raw_data`: on success, copy
the spec's declared fields from the adapter's data into the record
(`raw_data.update({key: source_data["data"][key] for key in config.fields})`);
on failure, leave the record untouched. -/
def mergeStep (r : RawRec) (c : List String × FetchOutcome) : RawRec :=
  match c.2 with
  | .success data => dictSetFields r c.1 data
  | .failure _ => r

/-- The merge loop over a list of (declared fields, fetch outcome) pairs. -/
def mergeResults (r : RawRec) (l : List (List String × FetchOutcome)) : RawRec :=
  l.foldl mergeStep r

namespace Gameinsights

/-- `gameinsights/collector.py`, `Collector._init_sources_config`
(lines 65-141): the identifier-keyed source specs, in declaration order, with
their declared field lists copied verbatim. -/
def id_based_sources : List (SourceId × List String) :=
  [(.steamstore,
    ["steam_appid", "name", "developers", "publishers", "type",
     "price_currency", "price_initial", "price_final", "categories",
     "platforms", "genres", "metacritic_score", "release_date",
     "content_rating"]),
   (.gamalytic,
    ["average_playtime_h", "copies_sold", "estimated_revenue", "owners",
     "languages"]),
   (.steamspy, ["ccu", "tags"]),
   (.steamcharts,
    ["active_player_24h", "peak_active_player_all_time",
     "monthly_active_player"]),
   (.steamreview,
    ["review_score", "review_score_desc", "total_positive", "total_negative",
     "total_reviews"]),
   (.steamachievements,
    ["achievements_count", "achievements_percentage_average",
     "achievements_list"])]

/-- `Collector._init_sources_config`: the name-keyed source specs. -/
def name_based_sources : List (SourceId × List String) :=
  [(.howlongtobeat,
    ["comp_main", "comp_plus", "comp_100", "comp_all", "comp_main_count",
     "comp_plus_count", "comp_100_count", "comp_all_count", "invested_co",
     "invested_mp", "invested_co_count", "invested_mp_count", "count_comp",
     "count_speedrun", "count_backlog", "count_review", "review_score",
     "count_playing", "count_retired"])]

/-- One phase of `Collector._fetch_raw_data` (lines 403-428): call each
configured source's `fetch` with the given key, merge successes into the
record, and log every `(source, key)` invocation.  `env` gives each
adapter's outcome for a fetch key. -/
def run_phase (env : SourceId → Value → FetchOutcome) (key : Value)
    (configs : List (SourceId × List String)) (r : RawRec)
    (log : List (SourceId × Value)) : RawRec × List (SourceId × Value) :=
  configs.foldl
    (fun acc c => (mergeStep acc.1 (c.2, env c.1 key), acc.2 ++ [(c.1, key)]))
    (r, log)

/-- `Collector._fetch_raw_data`, raw-record part (lines 413-426): start from
`{"steam_appid": str(steam_appid)}`, run the identifier-keyed phase, then, if
the accumulated record's `"name"` is truthy, run the name-keyed phase with
the name as the fetch key.  Returns the record and the invocation log (the
subsequent `GameDataModel(raw_data)` validation is `validateGameData`
below). -/
def id_phase (env : SourceId → Value → FetchOutcome) (steam_appid : String) :
    RawRec × List (SourceId × Value) :=
  run_phase env (vStr steam_appid) id_based_sources
    [("steam_appid", vStr steam_appid)] []

/-- The name the record holds after the identifier-keyed phase
(`raw_data.get("name", None)`). -/
def game_name_of (env : SourceId → Value → FetchOutcome) (steam_appid : String) : Value :=
  (dictGet (id_phase env steam_appid).1 "name").getD vNone

def fetch_raw_data (env : SourceId → Value → FetchOutcome) (steam_appid : String) :
    RawRec × List (SourceId × Value) :=
  let idPhase := id_phase env steam_appid
  let game_name := game_name_of env steam_appid
  if pyTruthy game_name then
    run_phase env game_name name_based_sources idPhase.1 idPhase.2
  else idPhase

/-- `gameinsights/collector.py`, `Collector.get_games_data` (lines 260-286),
the per-entity loop: each appid's processing either produces a payload
(`model_dump`/`get_recap` of the fetched model, abstracted as `env appid`) or
raises, in which case the `except` branch only logs and the appid contributes
nothing to the result list. -/
def get_games_data (env : String → Option RawRec) (steam_appids : List String) :
    List RawRec :=
  steam_appids.foldl
    (fun acc appid =>
      match env appid with
      | some payload => acc ++ [payload]
      | none => acc)
    []

end Gameinsights

namespace Steamgamedata

/-- `steamgamedata/collector.py`, `DataCollector._init_sources_config`
(lines 56-96): the identifier-keyed source specs of the older revision. -/
def id_based_sources : List (SourceId × List String) :=
  [(.steamstore,
    ["steam_appid", "name", "developers", "publishers", "price_currency",
     "price_initial", "price_final", "platforms", "genres",
     "metacritic_score", "achievements", "release_date", "content_rating"]),
   (.gamalytic,
    ["average_playtime", "copies_sold", "revenue", "total_revenue", "owners"]),
   (.steamspy, ["ccu", "tags"]),
   (.steamcharts,
    ["active_player_24h", "peak_active_player_all_time",
     "monthly_active_player"]),
   (.steamreview,
    ["review_score", "review_score_desc", "total_positive", "total_negative",
     "total_reviews"])]

/-- `DataCollector._init_sources_config`: the name-keyed source specs. -/
def name_based_sources : List (SourceId × List String) :=
  [(.howlongtobeat,
    ["game_type", "comp_main", "comp_plus", "comp_100", "comp_all",
     "comp_main_count", "comp_plus_count", "comp_100_count", "comp_all_count",
     "invested_co", "invested_mp", "invested_co_count", "invested_mp_count",
     "count_comp", "count_speedrun", "count_backlog", "count_review",
     "review_score", "count_playing", "count_retired"])]

/-- `steamgamedata/collector.py`, `DataCollector._fetch_raw_data`
(lines 404-428): same two-phase merge as the newer revision, except that the
record starts out EMPTY (`raw_data: dict[str, Any] = {}`) — the entity key is
never seeded into it. -/
def fetch_raw_data (env : SourceId → Value → FetchOutcome) (steam_appid : String) :
    RawRec :=
  let afterId := mergeResults []
    (id_based_sources.map (fun c => (c.2, env c.1 (vStr steam_appid))))
  let game_name := (dictGet afterId "name").getD vNone
  if pyTruthy game_name then
    mergeResults afterId
      (name_based_sources.map (fun c => (c.2, env c.1 game_name)))
  else afterId

/-- `steamgamedata/collector.py`, `DataCollector.get_games_recap`
(lines 251-279): raise `ValueError` when fewer than two appids are given;
otherwise build one row per appid, substituting the minimal record
`{"steam_appid": appid}` when `get_game_recap` returned `None` (which it does
when every source failed).  `env appid` abstracts `get_game_recap`'s
dict-or-None result for one appid. -/
def get_games_recap (env : String → Option RawRec) (steam_appids : List String) :
    Except String (List RawRec) :=
  if steam_appids.length ≤ 1 then
    .error "At least two appids are required to fetch data. For singular search, use get_game_*"
  else
    .ok (steam_appids.foldl
      (fun all_data appid =>
        all_data ++ [(env appid).getD [("steam_appid", vStr appid)]])
      [])

end Steamgamedata

/-- The contents of a pydantic `.ok` outcome (`vNone` is a junk value for the
error case; only used where the outcome is known to be `.ok`). -/
def extractOk : Except String Value → Value
  | .ok v => v
  | .error _ => vNone

/-- The value a fetch outcome holds for a field (junk on failure; only used
where the outcome is known successful). -/
def FetchOutcome.dataOf : FetchOutcome → String → Value
  | .success d, f => d f
  | .failure _, _ => vNone

/-- Two records have the same contents (Python `dict` equality ignores
insertion order): every key maps to the same value in both. -/
def recordEquiv (r₁ r₂ : RawRec) : Prop :=
  ∀ f, dictGet r₁ f = dictGet r₂ f

/-- The declared field lists of two source specs are disjoint (stated
executably so that concrete instances are decidable). -/
def fieldsDisjoint (a b : List String × FetchOutcome) : Prop :=
  a.1.all (fun f => !b.1.contains f) = true

/-!
## Theorems

Shared lemmas about the dictionary model and the merge loop, followed by one
theorem per claim (with witnesses and counterexamples where required).
-/

theorem dictGet_dictSet_self (r : RawRec) (f : String) (v : Value) :
    dictGet (dictSet r f v) f = some v := by
  induction r with
  | nil => simp [dictSet, dictGet]
  | cons hd tl ih =>
    obtain ⟨a, w⟩ := hd
    by_cases haf : a = f
    · subst haf
      simp [dictSet, dictGet, List.find?_cons_of_pos]
    · have hfa : ((a, w).1 == f) = false := by simpa using haf
      simp only [dictSet, if_neg haf, dictGet, List.find?_cons_of_neg,
        hfa, Bool.false_eq_true, not_false_eq_true]
      simpa [dictGet] using ih

theorem dictGet_dictSet_ne (r : RawRec) (f g : String) (v : Value)
    (h : g ≠ f) : dictGet (dictSet r f v) g = dictGet r g := by
  induction r with
  | nil =>
    have : ((f, v).1 == g) = false := by simpa using fun hh => h hh.symm
    simp [dictSet, dictGet, List.find?_cons_of_neg, this]
  | cons hd tl ih =>
    obtain ⟨a, w⟩ := hd
    by_cases haf : a = f
    · subst haf
      have h1 : ((a, v).1 == g) = false := by simpa using fun hh => h hh.symm
      have h2 : ((a, w).1 == g) = false := h1
      simp [dictSet, dictGet, List.find?_cons_of_neg, h1, h2]
    · by_cases hag : a = g
      · subst hag
        simp [dictSet, if_neg haf, dictGet, List.find?_cons_of_pos]
      · have h2 : ((a, w).1 == g) = false := by simpa using hag
        simp only [dictSet, if_neg haf, dictGet, List.find?_cons_of_neg,
          h2, Bool.false_eq_true, not_false_eq_true]
        simpa [dictGet] using ih

theorem dictGet_dictSetFields (r : RawRec) (fields : List String)
    (data : String → Value) (g : String) :
    dictGet (dictSetFields r fields data) g =
      if g ∈ fields then some (data g) else dictGet r g := by
  induction fields generalizing r with
  | nil => simp [dictSetFields]
  | cons f rest ih =>
    by_cases hg : g ∈ rest
    · simp [dictSetFields, List.foldl_cons, hg]
      simpa [dictSetFields, hg] using ih (dictSet r f (data f))
    · by_cases hgf : g = f
      · subst hgf
        simp only [dictSetFields, List.foldl_cons, List.mem_cons, true_or,
          if_pos]
        have := ih (dictSet r g (data g))
        simp only [dictSetFields] at this
        rw [this, if_neg hg, dictGet_dictSet_self]
      · have hmem : g ∉ f :: rest := by simp [hgf, hg]
        simp only [dictSetFields, List.foldl_cons, if_neg hmem]
        have := ih (dictSet r f (data f))
        simp only [dictSetFields] at this
        rw [this, if_neg hg, dictGet_dictSet_ne _ _ _ _ hgf]

theorem dictGet_mergeStep_success (r : RawRec) (c : List String × FetchOutcome)
    (d : String → Value) (g : String) (hc : c.2 = .success d) :
    dictGet (mergeStep r c) g =
      if g ∈ c.1 then some (d g) else dictGet r g := by
  obtain ⟨fs, out⟩ := c
  cases out with
  | success dd =>
    cases hc
    simp [mergeStep, dictGet_dictSetFields]
  | failure e => cases hc

theorem dictGet_mergeStep_notMem (r : RawRec) (c : List String × FetchOutcome)
    (g : String) (hg : g ∉ c.1) : dictGet (mergeStep r c) g = dictGet r g := by
  obtain ⟨fs, out⟩ := c
  cases out with
  | success dd => simp [mergeStep, dictGet_dictSetFields, hg]
  | failure e => simp [mergeStep]

theorem dictGet_mergeStep_failure (r : RawRec) (c : List String × FetchOutcome)
    (g : String) (e : String) (hc : c.2 = .failure e) :
    dictGet (mergeStep r c) g = dictGet r g := by
  obtain ⟨fs, out⟩ := c
  cases hc
  simp [mergeStep]

theorem filterLabelsLoop_spec (vs : List String) (iter valid invalid : List String) :
    filterLabelsLoop vs iter valid invalid =
      (valid ++ iter.filter (fun l => vs.contains l),
       invalid ++ iter.filter (fun l => !vs.contains l)) := by
  induction iter generalizing valid invalid with
  | nil => simp [filterLabelsLoop]
  | cons label rest ih =>
    by_cases h : label ∈ vs
    · simp [filterLabelsLoop, h, ih, List.filter_cons]
    · simp [filterLabelsLoop, h, ih, List.filter_cons]

/-- C1. The gameinsights `_filter_valid_labels` is exactly the sublist of
the selected labels that lie in the valid set — in particular
`project(["a","z"], {"a","b"}) = ["a"]` — but the steamgamedata revision of
the same method iterates over the validation set instead of the selection,
so at the very same failing input it returns every valid label, `["a","b"]`
(the membership test on an element of the set itself is always true, so its
`invalid` branch is dead and nothing is ever dropped or warned about). -/
theorem c1_filter_valid_labels :
    Gameinsights.filter_valid_labels ["a", "z"] ["a", "b"] = ["a"] ∧
    Steamgamedata.filter_valid_labels ["a", "z"] ["a", "b"] = ["a", "b"] ∧
    (∀ selected valid : List String,
      Gameinsights.filter_valid_labels selected valid =
        selected.filter (fun l => valid.contains l)) ∧
    (∀ selected valid : List String,
      Steamgamedata.filter_valid_labels selected valid = valid.dedup) := by
  refine ⟨by decide, by decide, ?_, ?_⟩
  · intro selected valid
    simp [Gameinsights.filter_valid_labels, filterLabelsLoop_spec]
  · intro selected valid
    simp only [Steamgamedata.filter_valid_labels, filterLabelsLoop_spec,
      List.nil_append]
    exact List.filter_eq_self.2 (fun a ha => by simpa using ha)

theorem make_request_loop_retryable (script : ℕ → Attempt) (retries : ℕ)
    (b : ℚ) (url : String) (msgs : ℕ → String)
    (hs : ∀ i, 1 ≤ i → i ≤ retries → script i = .retryable (msgs i)) :
    ∀ fuel a acc, 1 ≤ a → a ≤ retries → retries - a < fuel →
      Gameinsights.make_request_loop script retries b url a fuel acc =
        (Gameinsights.create_synthetic_response url (msgs retries),
         acc ++ (List.range' (a - 1) (retries - a)).map (fun i => b * 2 ^ i)) := by
  intro fuel
  induction fuel with
  | zero => intro a acc _ _ hf; omega
  | succ f ih =>
    intro a acc ha har hf
    have hscript := hs a ha har
    by_cases hlt : a < retries
    · have hcount : retries - a = (retries - (a + 1)) + 1 := by omega
      have ha1 : a - 1 + 1 = a := by omega
      rw [Gameinsights.make_request_loop, hscript]
      simp only [if_pos hlt]
      rw [ih (a + 1) (acc ++ [b * 2 ^ (a - 1)]) (by omega) (by omega) (by omega)]
      rw [hcount, List.range'_succ, ha1]
      simp [List.append_assoc]
    · have haeq : a = retries := by omega
      subst haeq
      rw [Gameinsights.make_request_loop, hscript]
      simp [hlt]

/-- C2 (amended). If every one of the first `retries` GET attempts raises
a retryable error, `_make_request` returns (never raises) the synthetic
response — status `SYNTHETIC_ERROR_CODE` (599) with the last error's
description as its reason — after exactly `retries - 1` backoff sleeps (not
`retries`), the `i`-th sleep lasting `backoff_factor * 2 ^ (i - 1)` seconds;
the GET itself is attempted `retries` times. -/
theorem c2_make_request_retry_exhaustion (script : ℕ → Attempt) (retries : ℕ)
    (b : ℚ) (url : String) (msgs : ℕ → String) (hr : 1 ≤ retries)
    (hs : ∀ i, 1 ≤ i → i ≤ retries → script i = .retryable (msgs i)) :
    Gameinsights.make_request script retries b url =
      ({ status_code := Gameinsights.SYNTHETIC_ERROR_CODE, reason := msgs retries,
         url := url, body := .invalid "" },
       (List.range (retries - 1)).map (fun i => b * 2 ^ i)) := by
  rw [Gameinsights.make_request,
    make_request_loop_retryable script retries b url msgs hs (retries + 1) 1 []
      (by omega) hr (by omega)]
  simp [Gameinsights.create_synthetic_response, List.range_eq_range']

/-- Witness for C2: with `retries = 3`, backoff factor `1/2` and a script
that always times out, the call returns the synthetic 599 response carrying
the last timeout's description after exactly the two sleeps `[1/2, 1]`. -/
theorem c2_witness :
    (1 ≤ 3) ∧
    Gameinsights.make_request (fun _ => .retryable "timeout") 3 (1/2) "u" =
      ({ status_code := Gameinsights.SYNTHETIC_ERROR_CODE, reason := "timeout",
         url := "u", body := .invalid "" },
       [1/2, 1]) := by
  refine ⟨by decide, ?_⟩
  have := c2_make_request_retry_exhaustion (fun _ => .retryable "timeout") 3
    (1/2) "u" (fun _ => "timeout") (by decide) (fun i h1 h2 => rfl)
  rw [this]
  simp only [Prod.mk.injEq]
  refine ⟨trivial, ?_⟩
  norm_num [List.range_succ]

/-- C2 (counterexample). The claim as stated — "exactly `retries`
backoff sleeps" — is false: at `retries = 3` the exhausted call performs two
sleeps, not three (the loop sleeps only while `attempts < retries`, so the
final failing attempt returns the synthetic response without sleeping). -/
theorem c2_counterexample :
    ((Gameinsights.make_request (fun _ => .retryable "timeout") 3 (1/2) "u").2).length
      = 2 ∧
    ((Gameinsights.make_request (fun _ => .retryable "timeout") 3 (1/2) "u").2).length
      ≠ 3 := by
  constructor <;> decide

/-- C7. Evaluation at the failing input (budget `calls = 1`,
`period = 60`, two acquisitions in rapid succession at `t = 0`, then the
test-pinned configuration `calls = 2`, `period = 5` with three calls): with
the gameinsights decorator, whose limiter is cached on the instance so the
window persists between calls, the second (`C+1`-th) acquisition waits the
full 60 seconds remaining until the oldest admission leaves the window (and
the third of three waits 5), exactly as the claim states; with the
steamgamedata decorator, which rebuilds `limits(...)` inside every call, each
acquisition sees a fresh empty window and the `C+1`-th call does not block at
all — the window state does not persist between calls. -/
theorem c7_rate_limit_persistence :
    Gameinsights.logged_rate_limited_waits 1 60 [0, 0] = [0, 60] ∧
    Gameinsights.logged_rate_limited_waits 2 5 [0, 0, 0] = [0, 0, 5] ∧
    Steamgamedata.logged_rate_limited_waits 1 60 [0, 0] = [0, 0] ∧
    Steamgamedata.logged_rate_limited_waits 2 5 [0, 0, 0] = [0, 0, 0] := by
  refine ⟨?_, ?_, ?_, ?_⟩
  all_goals simp [Gameinsights.logged_rate_limited_waits,
    Steamgamedata.logged_rate_limited_waits, acquire]
  all_goals norm_num

/-- C3 (counterexample). `fetch` is not exception-free on every upstream
payload: a 200 search response whose body is the well-formed JSON object
`{}` makes `HowLongToBeat.fetch` raise `KeyError` at
`search_result["count"]`, and a 200 response whose body is not JSON at all
makes `SteamSpy.fetch` raise `JSONDecodeError` at `response.json()`. -/
theorem c3_counterexample :
    Gameinsights.hltb_fetch
        (some { status_code := 200, reason := "OK", url := "u",
                body := .json (vDict []) }) none
      = .error .keyError ∧
    Gameinsights.steamspy_fetch "12345"
        { status_code := 200, reason := "OK", url := "u",
          body := .invalid "<html>" } none
      = .error .jsonDecodeError := by
  constructor <;> rfl

/-- C3 (amended). The adapters' `fetch` is exception-free on transport
failures, non-2xx statuses, and (for HowLongToBeat) empty, non-JSON or
non-object bodies, returning a Failure envelope with a human-readable reason
in each of those cases; for SteamSpy, any 200 response whose body is a JSON
object is also handled without raising.  (What remains CAN raise — see the
counterexample: SteamSpy on a non-JSON 200 body, HowLongToBeat on a JSON
object missing `"count"`/`"data"`.) -/
theorem c3_fetch_no_raise_amended :
    (∀ (appid : String) (resp : HttpResponse) (sel : Option (List String)),
      resp.status_code ≠ 200 →
        Gameinsights.steamspy_fetch appid resp sel =
          .ok (.failure ("Failed to connect to API. Status code: " ++
            toString resp.status_code))) ∧
    (∀ (appid : String) (resp : HttpResponse) (sel : Option (List String))
      (d : List (String × Value)),
      resp.body = .json (vDict d) →
        ∃ out, Gameinsights.steamspy_fetch appid resp sel = .ok out) ∧
    (∀ sel : Option (List String),
      Gameinsights.hltb_fetch none sel = .ok (.failure "Failed to fetch data.")) ∧
    (∀ (resp : HttpResponse) (sel : Option (List String)),
      (∀ d, resp.body ≠ .json (vDict d)) →
        ∃ msg, Gameinsights.hltb_fetch (some resp) sel = .ok (.failure msg)) := by
  refine ⟨?_, ?_, ?_, ?_⟩
  · intro appid resp sel h
    simp [Gameinsights.steamspy_fetch, h]
  · intro appid resp sel d hbody
    by_cases hst : resp.status_code = 200
    · rw [Gameinsights.steamspy_fetch]
      simp only [hst, ne_eq, not_true_eq_false, if_neg, hbody, reduceCtorEq,
        if_false]
      by_cases hname : pyTruthy ((dictGet d "name").getD vNone) = false
      · exact ⟨.failure ("Game with appid " ++ appid ++ " is not found."),
          by simp [hname]⟩
      · rw [if_neg hname]
        exact ⟨_, rfl⟩
    · exact ⟨.failure ("Failed to connect to API. Status code: " ++
        toString resp.status_code), by simp [Gameinsights.steamspy_fetch, hst]⟩
  · intro sel; rfl
  · intro resp sel hbody
    rw [Gameinsights.hltb_fetch]
    by_cases h4 : 400 ≤ resp.status_code
    · exact ⟨"Failed to fetch data.", by simp [h4]⟩
    · cases hb : resp.body with
      | invalid s =>
        by_cases hs : s = ""
        · subst hs
          exact ⟨"Failed to fetch data.", by simp [h4, Body.isEmptyText]⟩
        · exact ⟨"Failed to parse search response.", by
            simp [h4, Body.isEmptyText, hb, hs]⟩
      | json v =>
        cases v with
        | vDict d => exact absurd hb (hbody d)
        | vNone =>
          exact ⟨"Unexpected search response format.", by
            simp [h4, Body.isEmptyText, hb]⟩
        | vInt n =>
          exact ⟨"Unexpected search response format.", by
            simp [h4, Body.isEmptyText, hb]⟩
        | vFloat f =>
          exact ⟨"Unexpected search response format.", by
            simp [h4, Body.isEmptyText, hb]⟩
        | vStr s =>
          exact ⟨"Unexpected search response format.", by
            simp [h4, Body.isEmptyText, hb]⟩
        | vList l =>
          exact ⟨"Unexpected search response format.", by
            simp [h4, Body.isEmptyText, hb]⟩
        | vDate t =>
          exact ⟨"Unexpected search response format.", by
            simp [h4, Body.isEmptyText, hb]⟩

/-- Witness for C3 (amended): each no-raise guarantee applied at a concrete
input — a 404 SteamSpy response, a 200 SteamSpy response with an object
body, a `None` HowLongToBeat search response, and a 200 HowLongToBeat
response with a non-object (string) JSON body. -/
theorem c3_witness :
    ((404 : ℕ) ≠ 200 ∧
      Gameinsights.steamspy_fetch "12345"
          { status_code := 404, reason := "NF", url := "u", body := .invalid "" }
          none
        = .ok (.failure "Failed to connect to API. Status code: 404")) ∧
    (∃ out, Gameinsights.steamspy_fetch "12345"
        { status_code := 200, reason := "OK", url := "u",
          body := .json (vDict [("name", vStr "Mock")]) } none = .ok out) ∧
    (Gameinsights.hltb_fetch none none = .ok (.failure "Failed to fetch data.")) ∧
    (∃ msg, Gameinsights.hltb_fetch
        (some { status_code := 200, reason := "OK", url := "u",
                body := .json (vStr "oops") }) none
      = .ok (.failure msg)) := by
  obtain ⟨hA, hB, hC, hD⟩ := c3_fetch_no_raise_amended
  refine ⟨⟨by decide, hA "12345" _ none (by decide)⟩, ?_, hC none, ?_⟩
  · exact hB "12345" _ none [("name", vStr "Mock")] rfl
  · exact hD _ none (fun d h => by cases h)

theorem foldl_append_singleton {α β : Type} (f : α → β) :
    ∀ (l : List α) (acc : List β),
      l.foldl (fun acc a => acc ++ [f a]) acc = acc ++ l.map f := by
  intro l
  induction l with
  | nil => intro acc; simp
  | cons a rest ih => intro acc; simp [ih]

/-- C4 (counterexample). The claim fails on non-empty singleton input:
`get_games_recap` (steamgamedata) raises `ValueError` for fewer than two
appids instead of returning one result for the one key, and `get_games_data`
(gameinsights) omits from its output an entity whose processing raised
(`env = fun _ => none`), returning an empty list instead of a minimal
record. -/
theorem c4_counterexample :
    Steamgamedata.get_games_recap (fun _ => none) ["12345"] =
      .error "At least two appids are required to fetch data. For singular search, use get_game_*" ∧
    Gameinsights.get_games_data (fun _ => none) ["12345"] = [] :=
  ⟨rfl, rfl⟩

/-- C4 (amended). For every list of at least two entity keys,
`get_games_recap` returns exactly one row per requested key, in order: the
per-key recap when it exists, and the minimal record `{"steam_appid": key}`
when the key's processing produced nothing — no key is omitted.  (Lists of
fewer than two keys are rejected with `ValueError`, and the gameinsights
`get_games_data` drops keys whose processing raises — see the
counterexample.) -/
theorem c4_get_games_recap_amended (env : String → Option RawRec)
    (steam_appids : List String) (h : 2 ≤ steam_appids.length) :
    Steamgamedata.get_games_recap env steam_appids =
      .ok (steam_appids.map
        (fun a => (env a).getD [("steam_appid", vStr a)])) ∧
    (steam_appids.map
        (fun a => (env a).getD [("steam_appid", vStr a)])).length =
      steam_appids.length := by
  constructor
  · rw [Steamgamedata.get_games_recap, if_neg (by omega)]
    rw [foldl_append_singleton]
    simp
  · simp

/-- Witness for C4 (amended): two appids, both of whose processing fails,
yield exactly the two minimal one-key records, in order. -/
theorem c4_witness :
    2 ≤ (["11", "22"] : List String).length ∧
    Steamgamedata.get_games_recap (fun _ => none) ["11", "22"] =
      .ok [[("steam_appid", vStr "11")], [("steam_appid", vStr "22")]] :=
  ⟨by decide,
   (c4_get_games_recap_amended (fun _ => none) ["11", "22"] (by decide)).1⟩

theorem run_phase_fst (env : SourceId → Value → FetchOutcome) (key : Value)
    (configs : List (SourceId × List String)) (r : RawRec)
    (log : List (SourceId × Value)) :
    (Gameinsights.run_phase env key configs r log).1 =
      mergeResults r (configs.map (fun c => (c.2, env c.1 key))) := by
  induction configs generalizing r log with
  | nil => simp [Gameinsights.run_phase, mergeResults]
  | cons c rest ih =>
    simp only [Gameinsights.run_phase, List.foldl_cons, List.map_cons,
      mergeResults] at ih ⊢
    exact ih _ _

theorem run_phase_snd (env : SourceId → Value → FetchOutcome) (key : Value)
    (configs : List (SourceId × List String)) (r : RawRec)
    (log : List (SourceId × Value)) :
    (Gameinsights.run_phase env key configs r log).2 =
      log ++ configs.map (fun c => (c.1, key)) := by
  induction configs generalizing r log with
  | nil => simp [Gameinsights.run_phase]
  | cons c rest ih =>
    simp only [Gameinsights.run_phase, List.foldl_cons, List.map_cons] at ih ⊢
    rw [ih]
    simp

theorem dictGet_mergeResults_isSome (l : List (List String × FetchOutcome))
    (r : RawRec) (g : String) (h : (dictGet r g).isSome = true) :
    (dictGet (mergeResults r l) g).isSome = true := by
  induction l generalizing r with
  | nil => simpa [mergeResults] using h
  | cons c rest ih =>
    simp only [mergeResults, List.foldl_cons] at ih ⊢
    apply ih
    obtain ⟨fs, out⟩ := c
    cases out with
    | success d =>
      rw [dictGet_mergeStep_success _ _ d _ rfl]
      by_cases hg : g ∈ fs <;> simp [hg, h]
    | failure e =>
      rw [dictGet_mergeStep_failure _ _ _ e rfl]
      exact h

theorem mergeResults_all_failure (l : List (List String × FetchOutcome))
    (r : RawRec) (h : ∀ c ∈ l, ∃ e, c.2 = .failure e) :
    mergeResults r l = r := by
  induction l generalizing r with
  | nil => simp [mergeResults]
  | cons c rest ih =>
    simp only [mergeResults, List.foldl_cons] at ih ⊢
    obtain ⟨e, he⟩ := h c (by simp)
    obtain ⟨fs, out⟩ := c
    cases he
    rw [show mergeStep r (fs, FetchOutcome.failure e) = r from rfl]
    exact ih r (fun c hc => h c (by simp [hc]))

/-- C6 (counterexample). In the steamgamedata revision,
`_fetch_raw_data` starts from an empty dict, so when every configured source
fails the returned raw record is `{}` — it does not contain the entity key
at all. -/
theorem c6_counterexample :
    Steamgamedata.fetch_raw_data (fun _ _ => .failure "boom") "12345" = [] ∧
    dictGet (Steamgamedata.fetch_raw_data (fun _ _ => .failure "boom") "12345")
        "steam_appid" = none :=
  ⟨rfl, rfl⟩

/-- C6 (amended). In the gameinsights revision, `_fetch_raw_data` seeds
the record with `{"steam_appid": str(key)}`, so the returned raw record
always contains the `steam_appid` field, and when every configured source
fetch fails the record is exactly `{"steam_appid": key}`.  (In the
steamgamedata revision the record starts empty and zero successes yield `{}`
— see the counterexample.) -/
theorem c6_fetch_raw_data_amended (env : SourceId → Value → FetchOutcome)
    (key : String) :
    (dictGet (Gameinsights.fetch_raw_data env key).1 "steam_appid").isSome
        = true ∧
    ((∀ s k, ∃ e, env s k = .failure e) →
      (Gameinsights.fetch_raw_data env key).1 = [("steam_appid", vStr key)]) := by
  have hbase : (dictGet [("steam_appid", vStr key)] "steam_appid").isSome = true := by
    simp [dictGet]
  have hid : (dictGet (Gameinsights.id_phase env key).1 "steam_appid").isSome = true := by
    rw [Gameinsights.id_phase, run_phase_fst]
    exact dictGet_mergeResults_isSome _ _ _ hbase
  constructor
  · rw [Gameinsights.fetch_raw_data]
    by_cases ht : pyTruthy (Gameinsights.game_name_of env key) = true
    · simp only [ht, if_pos, run_phase_fst]
      exact dictGet_mergeResults_isSome _ _ _ hid
    · simp only [Bool.not_eq_true] at ht
      simp only [ht, Bool.false_eq_true, if_neg, not_false_eq_true]
      exact hid
  · intro hall
    have hfail : ∀ (configs : List (SourceId × List String)) (k : Value),
        ∀ c ∈ configs.map (fun c => (c.2, env c.1 k)), ∃ e, c.2 = .failure e := by
      intro configs k c hc
      simp only [List.mem_map] at hc
      obtain ⟨c0, _, rfl⟩ := hc
      exact hall c0.1 k
    have hid_rec : (Gameinsights.id_phase env key).1 = [("steam_appid", vStr key)] := by
      rw [Gameinsights.id_phase, run_phase_fst]
      exact mergeResults_all_failure _ _ (hfail _ _)
    have hname : Gameinsights.game_name_of env key = vNone := by
      rw [Gameinsights.game_name_of, hid_rec]
      simp [dictGet]
    rw [Gameinsights.fetch_raw_data]
    simp only [hname]
    rw [if_neg (by simp [pyTruthy])]
    exact hid_rec

/-- Witness for C6 (amended): with every source failing and key `"12345"`,
the record is exactly `{"steam_appid": "12345"}` and contains the key
field. -/
theorem c6_witness :
    (∀ s k, ∃ e, (fun (_ : SourceId) (_ : Value) => FetchOutcome.failure "e") s k
        = .failure e) ∧
    (Gameinsights.fetch_raw_data (fun _ _ => .failure "e") "12345").1 =
      [("steam_appid", vStr "12345")] ∧
    (dictGet (Gameinsights.fetch_raw_data (fun _ _ => .failure "e") "12345").1
        "steam_appid").isSome = true := by
  refine ⟨fun s k => ⟨"e", rfl⟩, ?_, ?_⟩
  · exact (c6_fetch_raw_data_amended (fun _ _ => .failure "e") "12345").2
      (fun s k => ⟨"e", rfl⟩)
  · exact (c6_fetch_raw_data_amended (fun _ _ => .failure "e") "12345").1

/-- C8. The name-keyed source specs are queried if and only if the raw
record holds a truthy `"name"` value after the identifier-keyed phase, and
when they are queried the fetch key passed to each name-keyed adapter is
exactly that name value; otherwise the invocation log contains only the
identifier-keyed calls (each made with the entity key). -/
theorem c8_name_phase_calls (env : SourceId → Value → FetchOutcome)
    (key : String) :
    (Gameinsights.fetch_raw_data env key).2 =
      (if pyTruthy (Gameinsights.game_name_of env key) then
        Gameinsights.id_based_sources.map (fun c => (c.1, vStr key)) ++
          Gameinsights.name_based_sources.map
            (fun c => (c.1, Gameinsights.game_name_of env key))
      else Gameinsights.id_based_sources.map (fun c => (c.1, vStr key))) := by
  have hidlog : (Gameinsights.id_phase env key).2 =
      Gameinsights.id_based_sources.map (fun c => (c.1, vStr key)) := by
    rw [Gameinsights.id_phase, run_phase_snd]
    simp
  rw [Gameinsights.fetch_raw_data]
  by_cases ht : pyTruthy (Gameinsights.game_name_of env key) = true
  · simp only [ht, if_pos, run_phase_snd, hidlog]
  · simp only [Bool.not_eq_true] at ht
    simp only [ht, Bool.false_eq_true, if_neg, not_false_eq_true, hidlog]

theorem fieldsDisjoint_iff (a b : List String × FetchOutcome) :
    fieldsDisjoint a b ↔ ∀ f ∈ a.1, f ∉ b.1 := by
  simp [fieldsDisjoint, List.all_eq_true, List.elem_iff]

theorem fieldsDisjoint_symm :
    Symmetric fieldsDisjoint := by
  intro a b hab
  rw [fieldsDisjoint_iff] at hab ⊢
  intro f hfb hfa
  exact hab f hfa hfb

theorem dictGet_mergeResults_pairwise (l : List (List String × FetchOutcome))
    (hd : l.Pairwise fieldsDisjoint) (r : RawRec) (g : String) :
    dictGet (mergeResults r l) g =
      (l.find? (fun c => c.2.isSuccess && c.1.contains g)).elim
        (dictGet r g) (fun c => some (c.2.dataOf g)) := by
  induction l generalizing r with
  | nil => simp [mergeResults]
  | cons c rest ih =>
    have hhead := (List.pairwise_cons.1 hd).1
    have hrest := (List.pairwise_cons.1 hd).2
    by_cases hp : (c.2.isSuccess && c.1.contains g) = true
    · rw [@List.find?_cons_of_pos _ (fun c => c.2.isSuccess && c.1.contains g) c rest hp]
      simp only [Option.elim]
      obtain ⟨hsucc, hcont⟩ := Bool.and_eq_true_iff.1 hp
      obtain ⟨fs, out⟩ := c
      cases out with
      | failure e => simp [FetchOutcome.isSuccess] at hsucc
      | success d =>
        have hg : g ∈ fs := by simpa [List.elem_iff] using hcont
        have hnone : rest.find? (fun c => c.2.isSuccess && c.1.contains g) = none := by
          rw [List.find?_eq_none]
          intro b hb
          have := (fieldsDisjoint_iff _ _).1 (hhead b hb) g hg
          simp [List.elem_iff, this]
        simp only [mergeResults, List.foldl_cons]
        rw [show (rest.foldl mergeStep (mergeStep r (fs, FetchOutcome.success d)))
            = mergeResults (mergeStep r (fs, FetchOutcome.success d)) rest from rfl,
          ih hrest, hnone]
        simp only [Option.elim]
        rw [dictGet_mergeStep_success _ _ d _ rfl, if_pos hg]
        simp [FetchOutcome.dataOf]
    · rw [@List.find?_cons_of_neg _ (fun c => c.2.isSuccess && c.1.contains g) c rest (by simpa using hp)]
      simp only [mergeResults, List.foldl_cons]
      rw [show (rest.foldl mergeStep (mergeStep r c))
          = mergeResults (mergeStep r c) rest from rfl, ih hrest]
      have hbase : dictGet (mergeStep r c) g = dictGet r g := by
        obtain ⟨fs, out⟩ := c
        cases out with
        | failure e => exact dictGet_mergeStep_failure _ _ _ e rfl
        | success d =>
          have : g ∉ fs := by
            intro hg
            exact hp (by simp [FetchOutcome.isSuccess, List.elem_iff, hg])
          exact dictGet_mergeStep_notMem _ _ _ this
      rw [hbase]

/-- C9. For source-spec results whose declared field sets are pairwise
disjoint, the merge into the raw record is order-independent: folding the
update loop over any permutation of the spec list yields a record with the
same contents (every field maps to the same value). -/
theorem c9_merge_order_independent (init : RawRec)
    (l₁ l₂ : List (List String × FetchOutcome)) (hp : l₁.Perm l₂)
    (hd : l₁.Pairwise fieldsDisjoint) :
    recordEquiv (mergeResults init l₁) (mergeResults init l₂) := by
  have hd₂ : l₂.Pairwise fieldsDisjoint :=
    (hp.pairwise_iff (fun hab => fieldsDisjoint_symm hab)).1 hd
  intro g
  rw [dictGet_mergeResults_pairwise l₁ hd init g,
    dictGet_mergeResults_pairwise l₂ hd₂ init g]
  cases h₁ : l₁.find? (fun c => c.2.isSuccess && c.1.contains g) with
  | none =>
    have h₂ : l₂.find? (fun c => c.2.isSuccess && c.1.contains g) = none := by
      rw [List.find?_eq_none]
      intro b hb
      exact List.find?_eq_none.1 h₁ b (hp.mem_iff.2 hb)
    rw [h₂]
  | some c =>
    have hpc := List.find?_some h₁
    have hmem : c ∈ l₂ := hp.subset (List.mem_of_find?_eq_some h₁)
    cases h₂ : l₂.find? (fun c => c.2.isSuccess && c.1.contains g) with
    | none => exact absurd hpc (by simpa using List.find?_eq_none.1 h₂ c hmem)
    | some c' =>
      have hpc' := List.find?_some h₂
      have hmem' : c' ∈ l₁ := hp.symm.subset (List.mem_of_find?_eq_some h₂)
      by_cases hcc : c = c'
      · rw [hcc]
      · exfalso
        have hdisj := List.Pairwise.forall fieldsDisjoint_symm hd
          (List.mem_of_find?_eq_some h₁) hmem' hcc
        obtain ⟨_, hcont⟩ := Bool.and_eq_true_iff.1 hpc
        obtain ⟨_, hcont'⟩ := Bool.and_eq_true_iff.1 hpc'
        have hg : g ∈ c.1 := by simpa [List.elem_iff] using hcont
        have hg' : g ∈ c'.1 := by simpa [List.elem_iff] using hcont'
        exact (fieldsDisjoint_iff _ _).1 hdisj g hg hg'

/-- Witness for C9: two disjoint specs (fields `["x"]` and `["y"]`) merged
in both orders give records with identical contents. -/
theorem c9_witness :
    ([(["x"], FetchOutcome.success (fun _ => vInt 1)),
      (["y"], FetchOutcome.success (fun _ => vInt 2))].Perm
     [(["y"], FetchOutcome.success (fun _ => vInt 2)),
      (["x"], FetchOutcome.success (fun _ => vInt 1))]) ∧
    ([(["x"], FetchOutcome.success (fun _ => vInt 1)),
      (["y"], FetchOutcome.success (fun _ => vInt 2))].Pairwise fieldsDisjoint) ∧
    recordEquiv
      (mergeResults []
        [(["x"], FetchOutcome.success (fun _ => vInt 1)),
         (["y"], FetchOutcome.success (fun _ => vInt 2))])
      (mergeResults []
        [(["y"], FetchOutcome.success (fun _ => vInt 2)),
         (["x"], FetchOutcome.success (fun _ => vInt 1))]) := by
  have hp : ([(["x"], FetchOutcome.success (fun _ => vInt 1)),
      (["y"], FetchOutcome.success (fun _ => vInt 2))].Perm
     [(["y"], FetchOutcome.success (fun _ => vInt 2)),
      (["x"], FetchOutcome.success (fun _ => vInt 1))]) := List.Perm.swap _ _ _
  have hd : ([(["x"], FetchOutcome.success (fun _ => vInt 1)),
      (["y"], FetchOutcome.success (fun _ => vInt 2))].Pairwise fieldsDisjoint) := by
    simp [List.pairwise_cons, fieldsDisjoint]
  exact ⟨hp, hd, c9_merge_order_independent [] _ _ hp hd⟩

/-- C10. The configured declared field sets are not pairwise disjoint:
`"review_score"` is declared both for the identifier-keyed steamreview spec
and for the name-keyed howlongtobeat spec, and because the merge is
last-write-wins in declaration order (identifier phase first, then the name
phase), in every run where the steamreview fetch succeeds, the name is
usable, and the howlongtobeat fetch succeeds, the identifier phase leaves the
steamreview `review_score` in the record and the final record carries the
howlongtobeat value instead. -/
theorem c10_review_score_overwrite (env : SourceId → Value → FetchOutcome)
    (key : String) (d0 d1 : String → Value)
    (h0 : env .steamreview (vStr key) = .success d0)
    (ht : pyTruthy (Gameinsights.game_name_of env key) = true)
    (h1 : env .howlongtobeat (Gameinsights.game_name_of env key) = .success d1) :
    (∃ fs, (SourceId.steamreview, fs) ∈ Gameinsights.id_based_sources ∧
      "review_score" ∈ fs) ∧
    (∃ fs, (SourceId.howlongtobeat, fs) ∈ Gameinsights.name_based_sources ∧
      "review_score" ∈ fs) ∧
    dictGet (Gameinsights.id_phase env key).1 "review_score" =
      some (d0 "review_score") ∧
    dictGet (Gameinsights.fetch_raw_data env key).1 "review_score" =
      some (d1 "review_score") := by
  have hid : dictGet (Gameinsights.id_phase env key).1 "review_score" =
      some (d0 "review_score") := by
    rw [Gameinsights.id_phase, run_phase_fst]
    simp only [Gameinsights.id_based_sources, List.map_cons, List.map_nil,
      mergeResults, List.foldl_cons, List.foldl_nil]
    rw [dictGet_mergeStep_notMem _ _ _ (by simp)]
    rw [dictGet_mergeStep_success _ _ d0 _ h0, if_pos (by simp)]
  refine ⟨⟨["review_score", "review_score_desc", "total_positive",
      "total_negative", "total_reviews"],
      by simp [Gameinsights.id_based_sources], by simp⟩,
    ⟨["comp_main", "comp_plus", "comp_100", "comp_all", "comp_main_count",
      "comp_plus_count", "comp_100_count", "comp_all_count", "invested_co",
      "invested_mp", "invested_co_count", "invested_mp_count", "count_comp",
      "count_speedrun", "count_backlog", "count_review", "review_score",
      "count_playing", "count_retired"],
      by simp [Gameinsights.name_based_sources], by simp⟩, hid, ?_⟩
  rw [Gameinsights.fetch_raw_data]
  simp only [ht, if_pos, run_phase_fst]
  simp only [Gameinsights.name_based_sources, List.map_cons, List.map_nil,
    mergeResults, List.foldl_cons, List.foldl_nil]
  rw [dictGet_mergeStep_success _ _ d1 _ h1, if_pos (by simp)]

/-- Witness for C10: a run in which steamstore resolves the name, steamreview
reports `review_score = 5` and howlongtobeat reports `review_score = 9`; the
identifier phase holds `5`, the final record holds `9` — the steamreview
value was overwritten. -/
theorem c10_witness :
    ((fun s (_ : Value) => match s with
      | SourceId.steamstore => FetchOutcome.success (fun _ => vStr "Mock Game")
      | SourceId.steamreview => FetchOutcome.success (fun _ => vInt 5)
      | SourceId.howlongtobeat => FetchOutcome.success (fun _ => vInt 9)
      | _ => FetchOutcome.failure "e") SourceId.steamreview (vStr "12345") =
        .success (fun _ => vInt 5)) ∧
    (pyTruthy (Gameinsights.game_name_of (fun s (_ : Value) => match s with
      | SourceId.steamstore => FetchOutcome.success (fun _ => vStr "Mock Game")
      | SourceId.steamreview => FetchOutcome.success (fun _ => vInt 5)
      | SourceId.howlongtobeat => FetchOutcome.success (fun _ => vInt 9)
      | _ => FetchOutcome.failure "e") "12345") = true) ∧
    dictGet (Gameinsights.id_phase (fun s (_ : Value) => match s with
      | SourceId.steamstore => FetchOutcome.success (fun _ => vStr "Mock Game")
      | SourceId.steamreview => FetchOutcome.success (fun _ => vInt 5)
      | SourceId.howlongtobeat => FetchOutcome.success (fun _ => vInt 9)
      | _ => FetchOutcome.failure "e") "12345").1 "review_score" =
      some (vInt 5) ∧
    dictGet (Gameinsights.fetch_raw_data (fun s (_ : Value) => match s with
      | SourceId.steamstore => FetchOutcome.success (fun _ => vStr "Mock Game")
      | SourceId.steamreview => FetchOutcome.success (fun _ => vInt 5)
      | SourceId.howlongtobeat => FetchOutcome.success (fun _ => vInt 9)
      | _ => FetchOutcome.failure "e") "12345").1 "review_score" =
      some (vInt 9) ∧
    some (vInt 5) ≠ some (vInt 9) := by
  have hth := c10_review_score_overwrite (fun s (_ : Value) => match s with
      | SourceId.steamstore => FetchOutcome.success (fun _ => vStr "Mock Game")
      | SourceId.steamreview => FetchOutcome.success (fun _ => vInt 5)
      | SourceId.howlongtobeat => FetchOutcome.success (fun _ => vInt 9)
      | _ => FetchOutcome.failure "e") "12345"
    (fun _ => vInt 5) (fun _ => vInt 9) rfl (by decide) rfl
  exact ⟨rfl, by decide, hth.2.2.1, hth.2.2.2, by simp⟩

theorem handle_integers_shape (v : Value) :
    handle_integers v = vNone ∨ ∃ n, handle_integers v = vInt n := by
  cases v with
  | vNone => exact Or.inl rfl
  | vInt n => exact Or.inr ⟨n, rfl⟩
  | vFloat f =>
    cases f with
    | nan => exact Or.inl rfl
    | rat q => exact Or.inr ⟨ratTrunc q, rfl⟩
  | vStr s =>
    cases h : pyIntOfString s with
    | none => exact Or.inl (by simp [handle_integers, h])
    | some n => exact Or.inr ⟨n, by simp [handle_integers, h]⟩
  | vList l => exact Or.inl rfl
  | vDict d => exact Or.inl rfl
  | vDate d => exact Or.inl rfl

theorem handle_float_shape (v : Value) : ∃ f, handle_float v = vFloat f := by
  cases v with
  | vNone => exact ⟨.nan, rfl⟩
  | vInt n => exact ⟨.rat n, rfl⟩
  | vFloat f => exact ⟨f, rfl⟩
  | vStr s =>
    cases h : pyFloatOfString s with
    | none => exact ⟨.nan, by simp [handle_float, h]⟩
    | some f => exact ⟨f, by simp [handle_float, h]⟩
  | vList l => exact ⟨.nan, rfl⟩
  | vDict d => exact ⟨.nan, rfl⟩
  | vDate d => exact ⟨.nan, rfl⟩

theorem collectFields_ok (raw : RawRec) (l : List (String × FieldSpec))
    (h : ∀ nf ∈ l, (fieldOutcome nf.2 (dictGet raw nf.1)).isOk = true) :
    collectFields raw l =
      .ok (l.map (fun nf => (nf.1, extractOk (fieldOutcome nf.2 (dictGet raw nf.1))))) := by
  induction l with
  | nil => simp [collectFields]
  | cons nf rest ih =>
    have hhead := h nf (by simp)
    cases hf : fieldOutcome nf.2 (dictGet raw nf.1) with
    | error e =>
      rw [hf] at hhead
      exact absurd hhead (by simp [Except.isOk, Except.toBool])
    | ok v =>
      obtain ⟨m, fs⟩ := nf
      simp only [collectFields]
      simp only at hf
      rw [hf, ih (fun x hx => h x (by simp [hx]))]
      simp [hf, extractOk]

theorem collectFields_lookup (raw : RawRec) (l : List (String × FieldSpec))
    (r : RawRec) (h : collectFields raw l = .ok r) (n : String) :
    dictGet r n =
      (l.find? (fun nf => nf.1 == n)).map
        (fun nf => extractOk (fieldOutcome nf.2 (dictGet raw nf.1))) := by
  induction l generalizing r with
  | nil =>
    simp only [collectFields, Except.ok.injEq] at h
    subst h
    simp [dictGet]
  | cons nf rest ih =>
    obtain ⟨m, fs⟩ := nf
    simp only [collectFields] at h
    cases hf : fieldOutcome fs (dictGet raw m) with
    | error e => rw [hf] at h; exact absurd h (by simp)
    | ok v =>
      rw [hf] at h
      cases hr : collectFields raw rest with
      | error e => rw [hr] at h; exact absurd h (by simp)
      | ok r' =>
        rw [hr] at h
        simp only [Except.ok.injEq] at h
        subst h
        by_cases hmn : m = n
        · subst hmn
          rw [@List.find?_cons_of_pos _ (fun nf => nf.1 == m) (m, fs) rest
            (by simp)]
          have hl : dictGet ((m, v) :: r') m = some v := by simp [dictGet]
          rw [hl]
          simp only [Option.map]
          rw [hf]
          simp [extractOk]
        · have hbeq : (m == n) = false := by simpa using hmn
          rw [@List.find?_cons_of_neg _ (fun nf => nf.1 == n) (m, fs) rest
            (by simp [hbeq])]
          rw [← ih r' hr]
          simp [dictGet, List.find?_cons_of_neg, hbeq]

/-- C5 (counterexample). Validation is not total on every raw map
containing `steam_appid`: the numeric (`int | None`) field
`days_since_release` has no `mode="before"` validator, so a malformed scalar
supplied for it goes straight to pydantic's core coercion and raises a
`ValidationError` instead of resolving to the null sentinel. -/
theorem c5_counterexample :
    validateGameData 0
        [("steam_appid", vStr "1"), ("days_since_release", vStr "abc")] =
      .error "int_parsing" := by
  rfl

/-- C5 (amended). `GameDataModel` validation raises exactly when
`steam_appid` is missing — as long as the other supplied values are confined
to fields covered by a single total before-validator: for the numeric fields
processed by `handle_integers` (e.g. `metacritic_score`) or `handle_float`
(e.g. `price_final`), EVERY value — malformed scalars included — is coerced,
with failures resolved to the `None`/NaN sentinel rather than raising.
Fields without a before-validator (`days_since_release`, `average_playtime`,
`price_currency`, `review_score_desc`), item validation of the list fields,
and the doubly-validated `review_score` are not covered by this guarantee
(see the counterexample). -/
theorem c5_validate_amended :
    (∀ (now : ℤ) (raw : RawRec), dictGet raw "steam_appid" = none →
      validateGameData now raw = .error "Field required") ∧
    (∀ (now : ℤ) (v : Value), ∃ rec,
      validateGameData now
          [("steam_appid", vStr "1"), ("metacritic_score", v),
           ("price_final", v)] = .ok rec ∧
      dictGet rec "metacritic_score" = some (handle_integers v) ∧
      dictGet rec "price_final" = some (handle_float v)) := by
  constructor
  · intro now raw h
    simp [validateGameData, gameDataSchema, collectFields, fieldOutcome, h]
  · intro now v
    set raw : RawRec :=
      [("steam_appid", vStr "1"), ("metacritic_score", v), ("price_final", v)]
    have hall : ∀ nf ∈ gameDataSchema,
        (fieldOutcome nf.2 (dictGet raw nf.1)).isOk = true := by
      intro nf hmem
      fin_cases hmem <;>
        first
          | rfl
          | (rw [show dictGet raw "metacritic_score" = some v from rfl]
             rcases handle_integers_shape v with h | ⟨n, h⟩ <;>
               simp [fieldOutcome, validateField, intField, runBefore, h,
                 coreValidate, Except.isOk, Except.toBool])
          | (rw [show dictGet raw "price_final" = some v from rfl]
             obtain ⟨f, h⟩ := handle_float_shape v
             simp [fieldOutcome, validateField, floatField, runBefore, h,
               coreValidate, Except.isOk, Except.toBool])
    have hcf := collectFields_ok raw gameDataSchema hall
    set recBase : RawRec := gameDataSchema.map
      (fun nf => (nf.1, extractOk (fieldOutcome nf.2 (dictGet raw nf.1))))
    have hmet : dictGet recBase "metacritic_score" =
        some (extractOk (fieldOutcome intField (some v))) := by
      rw [collectFields_lookup raw gameDataSchema recBase hcf]
      rfl
    have hpf : dictGet recBase "price_final" =
        some (extractOk (fieldOutcome floatField (some v))) := by
      rw [collectFields_lookup raw gameDataSchema recBase hcf]
      rfl
    have havgh : dictGet recBase "average_playtime_h" = some (vFloat .nan) := by
      rw [collectFields_lookup raw gameDataSchema recBase hcf]
      rfl
    have hrel : dictGet recBase "release_date" = some vNone := by
      rw [collectFields_lookup raw gameDataSchema recBase hcf]
      rfl
    have hpre : preprocess_data now recBase = recBase := by
      have h1 : compute_average_playtime recBase = recBase := by
        simp only [compute_average_playtime, havgh]
      rw [preprocess_data, h1, compute_days_since_release, hrel]
    refine ⟨recBase, ?_, ?_, ?_⟩
    · rw [validateGameData, hcf]
      show Except.ok (preprocess_data now recBase) = Except.ok recBase
      rw [hpre]
    · rw [hmet]
      rcases handle_integers_shape v with h | ⟨n, h⟩ <;>
        simp [fieldOutcome, validateField, intField, runBefore, h,
          coreValidate, extractOk]
    · rw [hpf]
      obtain ⟨f, h⟩ := handle_float_shape v
      simp [fieldOutcome, validateField, floatField, runBefore, h,
        coreValidate, extractOk]

/-- Witness for C5 (amended): the empty raw map (no `steam_appid`) raises
`Field required`; the malformed scalar `"abc"` supplied for
`metacritic_score` and `price_final` validates with the `None` and NaN
sentinels. -/
theorem c5_witness :
    (dictGet [] "steam_appid" = none) ∧
    validateGameData 0 [] = .error "Field required" ∧
    (∃ rec, validateGameData 0
        [("steam_appid", vStr "1"), ("metacritic_score", vStr "abc"),
         ("price_final", vStr "abc")] = .ok rec ∧
      dictGet rec "metacritic_score" = some (handle_integers (vStr "abc")) ∧
      dictGet rec "price_final" = some (handle_float (vStr "abc"))) ∧
    handle_integers (vStr "abc") = vNone ∧
    handle_float (vStr "abc") = vFloat .nan := by
  refine ⟨rfl, c5_validate_amended.1 0 [] rfl,
    c5_validate_amended.2 0 (vStr "abc"), rfl, rfl⟩
